import Mathlib

/-!
Verification of the coverage acquisition-and-reconciliation pipeline of the
`cypress-code-coverage-v8` plugin (source: `src/task.ts`).

The embedding models:
* the filesystem as an association list from path to typed file data
  (source/built text files, sourcemap files, raw V8 coverage artifacts,
  canonical Istanbul coverage artifacts);
* the external `minimatch` glob matcher and the external `v8-to-istanbul`
  converter as function parameters (`GlobMatcher`, `Converter`), since they
  are third-party libraries outside the repository;
* the external `@bcoe/v8-coverage` `mergeProcessCovs` at the granularity of
  per-URL grouping of script coverages (intra-URL range-tree merging is
  abstracted as concatenation of the function lists, which is what every
  claim below depends on);
* a thrown JavaScript exception / rejected promise escaping a hook as
  `Except.error`, and a JavaScript `null` return as `Option.none`;
* diagnostic `console.error` logging as explicitly returned `List String`
  values where a claim talks about logging.
-/

set_option autoImplicit false

/-- One V8 coverage range: `{ startOffset, endOffset, count }`
(`Profiler.CoverageRange`). -/
structure CovRange where
  startOffset : Nat
  endOffset : Nat
  count : Nat
deriving DecidableEq, Repr

/-- One V8 function coverage record: `{ functionName, ranges, isBlockCoverage }`
(`Profiler.FunctionCoverage`). -/
structure FunctionCov where
  functionName : String
  ranges : List CovRange
  isBlockCoverage : Bool
deriving DecidableEq, Repr

/-- One V8 script coverage record: `{ url, scriptId, functions }`
(`Profiler.ScriptCoverage`). -/
structure ScriptCov where
  url : String
  scriptId : String
  functions : List FunctionCov
deriving DecidableEq, Repr

/-- A raw V8 process coverage report: `{ result: ScriptCoverage[] }`
(`Profiler.TakePreciseCoverageReturnType`). -/
structure ProcessCov where
  result : List ScriptCov
deriving DecidableEq, Repr

/-- The URLs of the scripts appearing in a raw coverage report. -/
def covUrls (p : ProcessCov) : List String :=
  p.result.map (fun s => s.url)

/-- An encoded sourcemap, restricted to the one field `task.ts` uses:
its `sources` list. -/
structure EncodedSourceMap where
  sources : List String
deriving DecidableEq, Repr

/-- The source bundle handed to `v8-to-istanbul`
(type `V8ToIstanbulSources` in `task.ts`). -/
structure V8ToIstanbulSources where
  source : String
  originalSource : String
  sourceMap : Option EncodedSourceMap
deriving DecidableEq, Repr

/-- An Istanbul per-file coverage record, modelled as hit counts keyed by
stable location identifiers. -/
structure FileCov where
  hits : List (String × Nat)
deriving DecidableEq, Repr

/-- An Istanbul coverage map: absolute file path to per-file record. -/
abbrev CovMap := List (String × FileCov)

/-- The keys (absolute file paths) of an Istanbul coverage map. -/
def covKeys (m : CovMap) : List String := m.map Prod.fst

/-- The resolved plugin options (type `CypressV8CoverageOptions` in
`task.ts`); the TypeScript fields `include` and `exclude` are renamed
`includeGlobs` / `excludeGlobs` because `include` is a Lean keyword. -/
structure CypressV8CoverageOptions where
  coverageDir : String
  baseUrls : List String
  srcDir : String
  buildDir : String
  includeUncovered : Bool
  includeGlobs : List String
  excludeGlobs : List String
  includeV8Patterns : List String
  excludeV8Patterns : List String
deriving DecidableEq, Repr

/-- The external `minimatch(str, pattern)` glob matcher, kept abstract
(first argument the string, second the pattern). -/
abbrev GlobMatcher := String → String → Bool

/-- The contents of one file on disk, at the granularity the pipeline
inspects files: plain text (application source / built artifacts), a
sourcemap file (`none` models "exists but does not parse as a valid
sourcemap"), a raw V8 coverage artifact, or a canonical Istanbul
coverage artifact. -/
inductive FileData where
  | src (content : String)
  | mapFile (parsed : Option EncodedSourceMap)
  | raw (cov : ProcessCov)
  | canon (m : CovMap)
deriving DecidableEq, Repr

/-- The filesystem: an association list from absolute path to file data. -/
abbrev FS := List (String × FileData)

/-- First-match association-list lookup (models reading a path). -/
def alookup {α : Type} : List (String × α) → String → Option α
  | [], _ => none
  | (q, d) :: rest, p => if q = p then some d else alookup rest p

/-- Delete a path (models `unlinkSync`). -/
def fsErase : FS → String → FS
  | [], _ => []
  | e :: rest, p => if e.1 = p then fsErase rest p else e :: fsErase rest p

/-- Write a path, overwriting any previous contents (models `writeFileSync`). -/
def fsSet (fs : FS) (p : String) (d : FileData) : FS :=
  (p, d) :: fsErase fs p

/-- Models Node `path.join(a, b)`. -/
def pathJoin (a b : String) : String := a ++ "/" ++ b

/-- Models Node `path.resolve` on the already-absolute paths the pipeline
feeds it (identity up to path normalization, which no claim depends on). -/
def pathResolve (p : String) : String := p

/-- `isPre sep l` holds when `sep` is a prefix of `l` (structural helper for
the string operations below, kept kernel-reducible). -/
def isPre : List Char → List Char → Bool
  | [], _ => true
  | _ :: _, [] => false
  | a :: as, b :: bs => a == b && isPre as bs

/-- Split a character list at the first occurrence of `sep`, returning the
part before it and the part after it, or `none` when `sep` never occurs. -/
def breakAt (sep : List Char) : List Char → Option (List Char × List Char)
  | [] => if sep.isEmpty then some ([], []) else none
  | c :: cs =>
    if isPre sep (c :: cs) then some ([], (c :: cs).drop sep.length)
    else
      match breakAt sep cs with
      | some (l, r) => some (c :: l, r)
      | none => none

/-- Models the JavaScript `s.startsWith(t)` test. -/
def strStartsWith (s t : String) : Bool := isPre t.toList s.toList

/-- Models the JavaScript `s.slice(n)` / Lean `String.drop` used to strip a
directory prefix. -/
def strDrop (s : String) (n : Nat) : String := String.mk (s.toList.drop n)

/-- Models the JavaScript `s.includes(t)` substring test. -/
def containsSub (s t : String) : Bool := (breakAt t.toList s.toList).isSome

/-- Models `new URL(u).pathname` for the well-formed http(s) URLs the
filtered scripts carry (e.g. `http://localhost:3000/assets/index.js`
gives `/assets/index.js`). -/
def urlPathname (u : String) : String :=
  let cs := u.toList
  let rest := match breakAt "://".toList cs with
    | some (_, r) => r
    | none => cs
  let p0 := match breakAt ['/'] rest with
    | some (_, r) => '/' :: r
    | none => ['/']
  let p1 := match breakAt ['?'] p0 with
    | some (l, _) => l
    | none => p0
  let p2 := match breakAt ['#'] p1 with
    | some (l, _) => l
    | none => p1
  String.mk p2

/-- `filterV8CoverageResult` from `task.ts`: accept a raw script record iff
its URL starts with a configured base URL, does not reference
`/node_modules/`, matches some `includeV8Patterns` glob and no
`excludeV8Patterns` glob. -/
def filterV8CoverageResult (mm : GlobMatcher) (opts : CypressV8CoverageOptions)
    (coverage : ScriptCov) : Bool :=
  if !(opts.baseUrls.any (fun url => strStartsWith coverage.url url)) then false
  else if containsSub coverage.url "/node_modules/" then false
  else
    let isIncluded := opts.includeV8Patterns.any (fun pat => mm coverage.url pat)
    let isExcluded := opts.excludeV8Patterns.any (fun pat => mm coverage.url pat)
    isIncluded && !isExcluded

/-- Model of the external `@bcoe/v8-coverage` `mergeProcessCovs`: scripts are
grouped by URL (each URL appearing once in the output), and the function
lists of same-URL scripts are combined; the library's intra-URL range-tree
merge and script-id renumbering are abstracted away. -/
def mergeProcessCovs (covs : List ProcessCov) : ProcessCov :=
  let all := (covs.map (fun p => p.result)).flatten
  let urls := (all.map (fun s => s.url)).dedup
  ⟨urls.map (fun u =>
    ⟨u, "0", ((all.filter (fun s => s.url == u)).map (fun s => s.functions)).flatten⟩)⟩

/-- Models the `fast-glob` enumeration performed by
`getUntestedFileCoverage` together with the subsequent `path.resolve` and
`fs.readFile`: the source files on disk under `srcDir` whose
`srcDir`-relative path matches some `include` glob and no `exclude` glob,
paired with their contents. -/
def fgPairs (mm : GlobMatcher) (opts : CypressV8CoverageOptions) (fs : FS) :
    List (String × String) :=
  fs.filterMap (fun e => match e.2 with
    | .src c =>
      let pre := opts.srcDir ++ "/"
      if strStartsWith e.1 pre then
        let rel := strDrop e.1 pre.length
        if (opts.includeGlobs.any (fun pat => mm rel pat))
            && !(opts.excludeGlobs.any (fun pat => mm rel pat))
        then some (e.1, c) else none
      else none
    | _ => none)

/-- The synthesized whole-file zero-coverage record `getUntestedFileCoverage`
builds for one untested file (path and contents given as a pair). -/
def mkUntestedScript (fc : String × String) : ScriptCov :=
  ⟨fc.1, "0",
    [⟨"(empty-report)", [⟨0, fc.2.length, 0⟩], true⟩]⟩

/-- `getUntestedFileCoverage` from `task.ts`: enumerate the application
source files, drop those already tested, synthesize a whole-file
zero-coverage record for each remaining file, and merge the results. -/
def getUntestedFileCoverage (mm : GlobMatcher) (opts : CypressV8CoverageOptions)
    (fs : FS) (testedFiles : List String) : ProcessCov :=
  let allFiles := fgPairs mm opts fs
  let untestedFiles := allFiles.filter (fun fc => !(testedFiles.contains fc.1))
  let coverages := untestedFiles.map (fun fc => ProcessCov.mk [mkUntestedScript fc])
  mergeProcessCovs (⟨[]⟩ :: coverages)

/-- `getSources` from `task.ts`: read the co-located `.map` file inside a
try/catch (missing or unparsable map becomes "no map" plus a diagnostic),
then read the built file itself OUTSIDE the try/catch, so an unreadable
built file is `Except.error` (a rejected promise). A parsed map has each
entry of its `sources` list rewritten to `path.resolve(buildDir + source)`. -/
def getSources (fs : FS) (buildDir : String) (filePath : String) :
    Except Unit (V8ToIstanbulSources × List String) :=
  let mapRes : Option EncodedSourceMap × List String :=
    match alookup fs (filePath ++ ".map") with
    | some (.mapFile (some sm)) =>
      (some ⟨sm.sources.map (fun s => pathResolve (buildDir ++ s))⟩, [])
    | some (.mapFile none) =>
      (none, ["⚠️ Error reading map file for file " ++ filePath])
    | some _ =>
      (none, ["⚠️ Error reading map file for file " ++ filePath])
    | none =>
      (none, ["⚠️ Error reading map file for file " ++ filePath])
  match alookup fs filePath with
  | some (.src code) => .ok (⟨code, code, mapRes.1⟩, mapRes.2)
  | _ => .error ()

/-- The external `v8-to-istanbul` converter pipeline
(`v8ToIstanbul` / `load` / `applyCoverage` / `toIstanbul`), kept abstract:
`none` models a thrown conversion error. -/
abbrev Converter := String → List FunctionCov → V8ToIstanbulSources → Option CovMap

/-- `convertCoverage` from `task.ts`: run the converter inside a try/catch;
on failure log two diagnostics and return `undefined` (here `none`). -/
def convertCoverage (conv : Converter) (filePath : String)
    (functions : List FunctionCov) (sources : V8ToIstanbulSources) :
    Option CovMap × List String :=
  match conv filePath functions sources with
  | some m => (some m, [])
  | none =>
    (none,
      ["error while converting the following file into Istanbul coverage format: "
         ++ filePath,
       "(exception details)"])

/-- Merge one per-file Istanbul record into another by summing hit counts
per location identifier (models `istanbul-lib-coverage` file merging). -/
def mergeFC (a b : FileCov) : FileCov :=
  ⟨(a.hits.map (fun lv => (lv.1, lv.2 + ((alookup b.hits lv.1).getD 0))))
    ++ b.hits.filter (fun lv => (alookup a.hits lv.1).isNone)⟩

/-- Merge two Istanbul coverage maps (models `CoverageMap.merge`): per-file
records for the same path are merged, paths unique to either side are kept. -/
def covMerge (a b : CovMap) : CovMap :=
  (a.map (fun kf => (kf.1,
      match alookup b kf.1 with
      | some g => mergeFC kf.2 g
      | none => kf.2)))
    ++ b.filter (fun kf => (alookup a kf.1).isNone)

/-- The sources bundle `generateCoverage` passes to `convertCoverage` for
untested files (`{ source: "", originalSource: "" }`). -/
def emptySources : V8ToIstanbulSources := ⟨"", "", none⟩

/-- One step of `generateCoverage`'s `Promise.all` over tested scripts:
resolve the built file from the URL, read sources (an unreadable built
file rejects the whole `Promise.all`, hence `Except.error`), skip scripts
with empty source text, convert, and merge successful conversions. -/
def scriptStep (conv : Converter) (opts : CypressV8CoverageOptions) (fs : FS)
    (acc : Except Unit CovMap) (s : ScriptCov) : Except Unit CovMap :=
  match acc with
  | .error e => .error e
  | .ok m =>
    let jsFileName := urlPathname s.url
    let filePath := pathResolve (opts.buildDir ++ jsFileName)
    match getSources fs opts.buildDir filePath with
    | .error _ => .error ()
    | .ok (sources, _) =>
      if sources.source = "" then .ok m
      else
        match (convertCoverage conv filePath s.functions sources).1 with
        | some ist => .ok (covMerge m ist)
        | none => .ok m

/-- One step of `generateCoverage`'s loop over synthesized untested-file
records: convert with empty sources and merge successful conversions. -/
def untestedStep (conv : Converter) (acc : CovMap) (s : ScriptCov) : CovMap :=
  match (convertCoverage conv s.url s.functions emptySources).1 with
  | some ist => covMerge acc ist
  | none => acc

/-- `generateCoverage` from `task.ts`: start from the existing Istanbul map,
convert and merge every tested script, then (when `includeUncovered`)
synthesize and merge zero-coverage records for untested files. -/
def generateCoverage (mm : GlobMatcher) (conv : Converter)
    (opts : CypressV8CoverageOptions) (fs : FS) (coverage : ProcessCov)
    (existingIstanbulCoverage : CovMap) : Except Unit CovMap :=
  match coverage.result.foldl (scriptStep conv opts fs) (.ok existingIstanbulCoverage) with
  | .error e => .error e
  | .ok m =>
    if opts.includeUncovered then
      let coveredFiles := covKeys m
      let untestedCoverage := getUntestedFileCoverage mm opts fs coveredFiles
      .ok (untestedCoverage.result.foldl (untestedStep conv) m)
    else .ok m

/-- The raw V8 intermediate artifact path for a spec:
`{coverageDir}/{specFileName}_v8.json`. -/
def rawArtifactPath (opts : CypressV8CoverageOptions) (testFileName : String) : String :=
  pathJoin opts.coverageDir (testFileName ++ "_v8.json")

/-- The canonical Istanbul artifact path for a spec:
`{coverageDir}/{specFileName}.json`. -/
def canonArtifactPath (opts : CypressV8CoverageOptions) (testFileName : String) : String :=
  pathJoin opts.coverageDir (testFileName ++ ".json")

/-- `v8CoverageBefore` from `task.ts`: delete the stale raw and canonical
artifacts for the spec when they exist (then return `null`). -/
def v8CoverageBefore (opts : CypressV8CoverageOptions) (fs : FS)
    (testFileName : String) : FS :=
  let oldV8 := rawArtifactPath opts testFileName
  let fs1 := if (alookup fs oldV8).isSome then fsErase fs oldV8 else fs
  let oldIst := canonArtifactPath opts testFileName
  if (alookup fs1 oldIst).isSome then fsErase fs1 oldIst else fs1

/-- `v8CoverageBeforeEach` from `task.ts`: with a debugger session, enable
profiling and start precise coverage (modelled as returning `some ()`);
with no session, log an operator-visible warning and return `null`. -/
def v8CoverageBeforeEach (session : Option Unit) : Option Unit × List String :=
  match session with
  | some _ => (some (), [])
  | none =>
    (none,
     ["⚠️ connection was lost to the chrome debugger protocol, unable to start coverage"])

/-- `v8CoverageAfterEach` from `task.ts`. `captured` is `some cov` when a
debugger session is present and `takePreciseCoverage` returned `cov`;
`none` models a lost session. With a session: filter the captured scripts,
read the spec's previous raw artifact (absent means empty report; a file
of a different shape at that path makes `JSON.parse`/merging throw, hence
`Except.error`), merge, and write the merged artifact back. Without a
session: log a warning and return `null`, leaving the filesystem intact. -/
def v8CoverageAfterEach (mm : GlobMatcher) (opts : CypressV8CoverageOptions)
    (captured : Option ProcessCov) (fs : FS) (testFileName : String) :
    Except Unit (Option Unit × FS × List String) :=
  match captured with
  | none =>
    .ok (none, fs,
      ["⚠️ connection was lost to the chrome debugger protocol, unable to take coverage"])
  | some rawV8Coverage =>
    let filteredV8Coverage :=
      rawV8Coverage.result.filter (filterV8CoverageResult mm opts)
    let filename := rawArtifactPath opts testFileName
    match alookup fs filename with
    | some (.raw previousCoverage) =>
      let merged := mergeProcessCovs [previousCoverage, ⟨filteredV8Coverage⟩]
      .ok (some (), fsSet fs filename (.raw merged), [])
    | none =>
      let merged := mergeProcessCovs [⟨[]⟩, ⟨filteredV8Coverage⟩]
      .ok (some (), fsSet fs filename (.raw merged), [])
    | some _ => .error ()

/-- The canonical artifact contents at a path, with an absent file read as
the empty map `{}` (used by `v8CoverageAfter`). -/
def canonOf (fs : FS) (p : String) : CovMap :=
  match alookup fs p with
  | some (.canon m) => m
  | _ => []

/-- `true` when a path either holds nothing or holds a canonical Istanbul
artifact (the shapes `v8CoverageAfter` can read back without throwing). -/
def canonSlotOK (fs : FS) (p : String) : Bool :=
  match alookup fs p with
  | none => true
  | some (.canon _) => true
  | some _ => false

/-- `v8CoverageAfter` from `task.ts`: when the raw artifact is absent the
hook is a no-op returning `null`; otherwise it reads the raw artifact,
reads the existing canonical artifact (absent means `{}`), converts and
merges via `generateCoverage`, writes the canonical artifact back, and
deletes the raw artifact. An exception escaping `generateCoverage` (or a
wrongly-shaped artifact) is `Except.error`: a rejected `cy.task` promise. -/
def v8CoverageAfter (mm : GlobMatcher) (conv : Converter)
    (opts : CypressV8CoverageOptions) (fs : FS) (testFileName : String) :
    Except Unit FS :=
  let v8CoverageFile := rawArtifactPath opts testFileName
  match alookup fs v8CoverageFile with
  | none => .ok fs
  | some (.raw v8Coverage) =>
    let existingFile := canonArtifactPath opts testFileName
    match alookup fs existingFile with
    | some (.canon existing) =>
      match generateCoverage mm conv opts fs v8Coverage existing with
      | .error e => .error e
      | .ok m => .ok (fsErase (fsSet fs existingFile (.canon m)) v8CoverageFile)
    | none =>
      match generateCoverage mm conv opts fs v8Coverage [] with
      | .error e => .error e
      | .ok m => .ok (fsErase (fsSet fs existingFile (.canon m)) v8CoverageFile)
    | some _ => .error ()
  | some _ => .error ()

/-- The user-supplied partial options (`Partial<CypressV8CoverageOptions>`). -/
structure PartialOptions where
  coverageDir : Option String
  baseUrls : Option (List String)
  srcDir : Option String
  buildDir : Option String
  includeUncovered : Option Bool
  includeGlobs : Option (List String)
  excludeGlobs : Option (List String)
  includeV8Patterns : Option (List String)
  excludeV8Patterns : Option (List String)
deriving DecidableEq, Repr

/-- The options-resolution step of `register` from `task.ts`:
defaults applied field by field; `baseUrls` falls back to the Cypress
config's `baseUrl` when that is set and truthy (non-empty), else `[]`. -/
def resolveOptions (options : PartialOptions) (configBaseUrl : Option String) :
    CypressV8CoverageOptions :=
  { coverageDir := pathResolve (options.coverageDir.getD "cypress-coverage")
    baseUrls := options.baseUrls.getD
      (match configBaseUrl with
       | some u => if u = "" then [] else [u]
       | none => [])
    srcDir := pathResolve (options.srcDir.getD "src")
    buildDir := pathResolve (options.buildDir.getD "dist")
    includeUncovered := options.includeUncovered.getD true
    includeGlobs := options.includeGlobs.getD
      ["**/*.ts", "**/*.tsx", "**/*.js", "**/*.jsx"]
    excludeGlobs := options.excludeGlobs.getD
      ["**/*.spec.ts", "**/*.spec.tsx", "**/*.spec.jsx", "**/*.spec.js", "**/*.d.ts"]
    includeV8Patterns := options.includeV8Patterns.getD ["**/assets/**/*.js"]
    excludeV8Patterns := options.excludeV8Patterns.getD ["**/__cypress/**", "**/__/**"] }

/-- The raw artifact contents at a path, with an absent file read as the
empty report (used to state read-merge-write properties of
`v8CoverageAfterEach`). -/
def prevRawOf (fs : FS) (p : String) : ProcessCov :=
  match alookup fs p with
  | some (.raw q) => q
  | _ => ⟨[]⟩

/-- `true` when a path either holds nothing or holds a raw V8 artifact
(the shapes `v8CoverageAfterEach` can read back without throwing). -/
def rawSlotOK (fs : FS) (p : String) : Bool :=
  match alookup fs p with
  | none => true
  | some (.raw _) => true
  | some _ => false

/-- `true` when a path holds a readable text file (used to state that a
built file can be read without throwing). -/
def isSrcSlot (fs : FS) (p : String) : Bool :=
  match alookup fs p with
  | some (.src _) => true
  | _ => false

/-- Fixture: a glob matcher accepting everything. -/
def mmAll : GlobMatcher := fun _ _ => true

/-- Fixture: a converter that always throws. -/
def convNone : Converter := fun _ _ _ => none

/-- Fixture: a converter that always succeeds, keying its output map by the
file path it was given. -/
def convKey : Converter := fun p _ _ => some [(p, ⟨[]⟩)]

/-- Fixture: a filesystem holding one application source file. -/
def fsOneSrc : FS := [("/app/src/App.tsx", .src "abc")]

/-- Fixture options with `includeUncovered = true`. -/
def optsA : CypressV8CoverageOptions :=
  ⟨"/cov", ["http://h"], "/app/src", "/build", true, ["*"], [], ["*"], []⟩

/-- Fixture options with `includeUncovered = false`. -/
def optsB : CypressV8CoverageOptions :=
  ⟨"/cov", ["http://h"], "/app/src", "/build", false, ["*"], [], ["*"], []⟩

/-- Fixture: a built file with a co-located, valid sourcemap. -/
def fsBuiltMap : FS :=
  [("/build/a.js", .src "js"),
   ("/build/a.js.map", .mapFile (some ⟨["/../src/App.tsx"]⟩))]

/-- Fixture: a raw artifact for spec `spec` whose one script's built file
is absent from the filesystem. -/
def fsRawOnly : FS := [("/cov/spec_v8.json", .raw ⟨[⟨"http://h/a.js", "1", []⟩]⟩)]

/-- Fixture: an empty raw artifact for spec `spec`. -/
def fsRawEmpty : FS := [("/cov/spec_v8.json", .raw ⟨[]⟩)]

/-- Fixture: a wholly-empty `Partial<CypressV8CoverageOptions>`. -/
def po0 : PartialOptions := ⟨none, none, none, none, none, none, none, none, none⟩

/-- The `untestedFiles` intermediate of `getUntestedFileCoverage`: enumerated
application source files (with contents) not in the tested set. -/
def untestedPairs (mm : GlobMatcher) (opts : CypressV8CoverageOptions)
    (fs : FS) (tested : List String) : List (String × String) :=
  (fgPairs mm opts fs).filter (fun fc => !(tested.contains fc.1))

theorem alookup_fsErase {fs : FS} {p q : String} :
    alookup (fsErase fs q) p = if p = q then none else alookup fs p := by
  induction fs with
  | nil => simp [fsErase, alookup]
  | cons e rest ih =>
    rcases e with ⟨a, d⟩
    by_cases h1 : a = q
    · simp only [fsErase, if_pos h1, ih, alookup]
      by_cases h2 : p = q
      · simp [h2]
      · have h3 : ¬ a = p := fun h => h2 ((Eq.symm h).trans h1)
        simp [h2, h3]
    · simp only [fsErase, if_neg h1, alookup]
      by_cases h3 : a = p
      · have hpq : ¬ p = q := fun h2 => h1 (h3.trans h2)
        simp [h3, hpq]
      · simp [h3, ih]

theorem alookup_fsSet_self {fs : FS} {p : String} {d : FileData} :
    alookup (fsSet fs p d) p = some d := by
  simp [fsSet, alookup]

theorem alookup_fsSet_ne {fs : FS} {p q : String} {d : FileData} (h : p ≠ q) :
    alookup (fsSet fs q d) p = alookup fs p := by
  simp only [fsSet, alookup]
  rw [if_neg (fun he => h (Eq.symm he)), alookup_fsErase, if_neg h]

theorem alookup_eq_none {α : Type} {l : List (String × α)} {k : String} :
    alookup l k = none ↔ k ∉ l.map Prod.fst := by
  induction l with
  | nil => simp [alookup]
  | cons e rest ih =>
    rcases e with ⟨a, d⟩
    by_cases h : a = k
    · subst h; simp [alookup]
    · simp only [List.map_cons, List.mem_cons, not_or, alookup, if_neg h, ih]
      constructor
      · intro hn; exact ⟨fun hk => h hk.symm, hn⟩
      · intro hn; exact hn.2

theorem rawPath_ne_canonPath (opts : CypressV8CoverageOptions) (n : String) :
    rawArtifactPath opts n ≠ canonArtifactPath opts n := by
  intro h
  have hl := congrArg String.length h
  have e1 : ("_v8.json" : String).length = 8 := rfl
  have e2 : (".json" : String).length = 5 := rfl
  simp only [rawArtifactPath, canonArtifactPath, pathJoin, String.length_append,
    e1, e2] at hl
  omega

theorem filterV8CoverageResult_eq_bool (mm : GlobMatcher)
    (opts : CypressV8CoverageOptions) (c : ScriptCov) :
    filterV8CoverageResult mm opts c =
      (opts.baseUrls.any (fun u => strStartsWith c.url u)
        && !containsSub c.url "/node_modules/"
        && opts.includeV8Patterns.any (fun p => mm c.url p)
        && !(opts.excludeV8Patterns.any (fun p => mm c.url p))) := by
  unfold filterV8CoverageResult
  cases opts.baseUrls.any (fun u => strStartsWith c.url u) <;>
    cases containsSub c.url "/node_modules/" <;> simp

theorem covUrls_mergeProcessCovs (covs : List ProcessCov) :
    covUrls (mergeProcessCovs covs) =
      ((covs.map (fun p => p.result)).flatten.map (fun s => s.url)).dedup := by
  simp only [covUrls, mergeProcessCovs, List.map_map]
  exact List.map_id' _

theorem mem_covKeys_covMerge {a b : CovMap} {k : String} :
    k ∈ covKeys (covMerge a b) ↔ k ∈ covKeys a ∨ k ∈ covKeys b := by
  simp only [covKeys, covMerge, List.map_append, List.map_map, List.mem_append]
  constructor
  · rintro (h | h)
    · left
      obtain ⟨kf, hkf, hk⟩ := List.mem_map.mp h
      exact List.mem_map.mpr ⟨kf, hkf, hk⟩
    · right
      obtain ⟨kf, hkf, hk⟩ := List.mem_map.mp h
      exact List.mem_map.mpr ⟨kf, List.mem_of_mem_filter hkf, hk⟩
  · intro h
    by_cases ha : k ∈ a.map Prod.fst
    · left
      obtain ⟨kf, hkf, hk⟩ := List.mem_map.mp ha
      exact List.mem_map.mpr ⟨kf, hkf, hk⟩
    · rcases h with h | h
      · exact absurd h ha
      · right
        obtain ⟨kf, hkf, hk⟩ := List.mem_map.mp h
        refine List.mem_map.mpr ⟨kf, List.mem_filter.mpr ⟨hkf, ?_⟩, hk⟩
        have : alookup a kf.1 = none := alookup_eq_none.mpr (hk ▸ ha)
        simp [this]

theorem mem_covKeys_covMerge_left {a b : CovMap} {k : String}
    (h : k ∈ covKeys a) : k ∈ covKeys (covMerge a b) :=
  mem_covKeys_covMerge.mpr (Or.inl h)

theorem mem_covKeys_covMerge_right {a b : CovMap} {k : String}
    (h : k ∈ covKeys b) : k ∈ covKeys (covMerge a b) :=
  mem_covKeys_covMerge.mpr (Or.inr h)

theorem alookup_condErase_self (fs : FS) (p : String) :
    alookup (if (alookup fs p).isSome then fsErase fs p else fs) p = none := by
  by_cases h : (alookup fs p).isSome
  · rw [if_pos h, alookup_fsErase, if_pos rfl]
  · rw [if_neg h]; exact Option.not_isSome_iff_eq_none.mp h

theorem alookup_condErase_none (fs : FS) (p q : String)
    (h : alookup fs p = none) :
    alookup (if (alookup fs q).isSome then fsErase fs q else fs) p = none := by
  by_cases hq : (alookup fs q).isSome
  · rw [if_pos hq, alookup_fsErase]
    by_cases hpq : p = q
    · simp [hpq]
    · simp [hpq, h]
  · rw [if_neg hq]; exact h

/-- C9: for every spec name and filesystem state, after the before-hook
returns, neither the raw artifact `{coverageDir}/{specFileName}_v8.json`
nor the canonical artifact `{coverageDir}/{specFileName}.json` exists,
even if either or both were present beforehand. -/
theorem before_hook_purges_artifacts (opts : CypressV8CoverageOptions)
    (fs : FS) (name : String) :
    alookup (v8CoverageBefore opts fs name) (rawArtifactPath opts name) = none ∧
    alookup (v8CoverageBefore opts fs name) (canonArtifactPath opts name) = none := by
  unfold v8CoverageBefore
  exact ⟨alookup_condErase_none _ _ _ (alookup_condErase_self fs _),
    alookup_condErase_self _ _⟩

/-- C5: the script filter accepts a raw script record iff its URL starts
with at least one configured base URL, does not contain `/node_modules/`,
matches at least one `includeV8Patterns` glob, and matches none of the
`excludeV8Patterns` globs; in particular a script whose URL starts with no
configured base URL is rejected regardless of its coverage content. -/
theorem script_filter_characterization (mm : GlobMatcher)
    (opts : CypressV8CoverageOptions) (c : ScriptCov) :
    (filterV8CoverageResult mm opts c = true ↔
      ((∃ u ∈ opts.baseUrls, strStartsWith c.url u = true) ∧
        containsSub c.url "/node_modules/" = false ∧
        (∃ p ∈ opts.includeV8Patterns, mm c.url p = true) ∧
        (∀ p ∈ opts.excludeV8Patterns, mm c.url p = false))) ∧
    ((∀ u ∈ opts.baseUrls, strStartsWith c.url u = false) →
      filterV8CoverageResult mm opts c = false) := by
  constructor
  · rw [filterV8CoverageResult_eq_bool]
    simp only [Bool.and_eq_true, Bool.not_eq_true', List.any_eq_true,
      List.any_eq_false, and_assoc]
    constructor
    · rintro ⟨h1, h2, h3, h4⟩
      exact ⟨h1, h2, h3, fun p hp => Bool.not_eq_true _ ▸ (by simpa using h4 p hp)⟩
    · rintro ⟨h1, h2, h3, h4⟩
      exact ⟨h1, h2, h3, fun p hp => by simp [h4 p hp]⟩
  · intro h
    rw [filterV8CoverageResult_eq_bool]
    have hb : opts.baseUrls.any (fun u => strStartsWith c.url u) = false :=
      List.any_eq_false.mpr (fun u hu => by simp [h u hu])
    simp [hb]

theorem script_filter_characterization_witness :
    filterV8CoverageResult mmAll optsA ⟨"http://h/a.js", "1", []⟩ = true :=
  ((script_filter_characterization mmAll optsA ⟨"http://h/a.js", "1", []⟩).1).mpr
    ⟨⟨"http://h", by decide, by decide⟩, by decide, ⟨"*", by decide, rfl⟩, by decide⟩

/-- C8: for every built-file path readable by the source resolver, the
returned bundle carries the built file's text, plus a sourcemap exactly
when a co-located `.map` file exists and parses, with every `sources`
entry rewritten to an absolute path rooted at `buildDir`; a missing or
unparsable map yields a diagnostic and a bundle with no map, without
failing. -/
theorem source_resolver_spec (fs : FS) (buildDir filePath code : String)
    (sm : EncodedSourceMap)
    (hsrc : alookup fs filePath = some (.src code)) :
    (alookup fs (filePath ++ ".map") = some (.mapFile (some sm)) →
      getSources fs buildDir filePath =
        .ok (⟨code, code, some ⟨sm.sources.map (fun s => pathResolve (buildDir ++ s))⟩⟩,
          [])) ∧
    (alookup fs (filePath ++ ".map") = some (.mapFile none) →
      getSources fs buildDir filePath =
        .ok (⟨code, code, none⟩,
          ["⚠️ Error reading map file for file " ++ filePath])) ∧
    (alookup fs (filePath ++ ".map") = none →
      getSources fs buildDir filePath =
        .ok (⟨code, code, none⟩,
          ["⚠️ Error reading map file for file " ++ filePath])) := by
  refine ⟨fun h => ?_, fun h => ?_, fun h => ?_⟩ <;> simp [getSources, h, hsrc]

theorem source_resolver_spec_witness :
    alookup fsBuiltMap "/build/a.js" = some (.src "js") ∧
    getSources fsBuiltMap "/build" "/build/a.js" =
      .ok (⟨"js", "js", some ⟨["/build/../src/App.tsx"]⟩⟩, []) :=
  ⟨rfl,
    (source_resolver_spec fsBuiltMap "/build" "/build/a.js" "js"
      ⟨["/../src/App.tsx"]⟩ rfl).1 rfl⟩

theorem after_hook_noop (mm : GlobMatcher) (conv : Converter)
    (opts : CypressV8CoverageOptions) (fs : FS) (name : String)
    (h : alookup fs (rawArtifactPath opts name) = none) :
    v8CoverageAfter mm conv opts fs name = .ok fs := by
  simp [v8CoverageAfter, h]

theorem after_hook_finalizes (mm : GlobMatcher) (conv : Converter)
    (opts : CypressV8CoverageOptions) (fs : FS) (name : String)
    (cov : ProcessCov) (m : CovMap)
    (hslot : canonSlotOK fs (canonArtifactPath opts name) = true)
    (hraw : alookup fs (rawArtifactPath opts name) = some (.raw cov))
    (hgen : generateCoverage mm conv opts fs cov
      (canonOf fs (canonArtifactPath opts name)) = .ok m) :
    v8CoverageAfter mm conv opts fs name =
      .ok (fsErase (fsSet fs (canonArtifactPath opts name) (.canon m))
        (rawArtifactPath opts name)) := by
  unfold canonSlotOK at hslot
  cases hc : alookup fs (canonArtifactPath opts name) with
  | none =>
    rw [canonOf, hc] at hgen
    simp [v8CoverageAfter, hraw, hc, hgen]
  | some d =>
    cases d with
    | canon m' =>
      rw [canonOf, hc] at hgen
      simp [v8CoverageAfter, hraw, hc, hgen]
    | src c => rw [hc] at hslot; cases hslot
    | mapFile p => rw [hc] at hslot; cases hslot
    | raw c => rw [hc] at hslot; cases hslot

/-- C6: with no debugger session, `beforeEach` and `afterEach` each emit an
operator-visible warning and return `null` without raising and without
touching the filesystem; the after-hook (which never consults the
session) still finalizes whatever raw coverage exists, or no-ops when
none does. -/
theorem session_loss_resilience (mm : GlobMatcher) (conv : Converter)
    (opts : CypressV8CoverageOptions) (fs : FS) (name : String)
    (cov : ProcessCov) (m : CovMap)
    (hslot : canonSlotOK fs (canonArtifactPath opts name) = true) :
    v8CoverageBeforeEach none =
      (none,
       ["⚠️ connection was lost to the chrome debugger protocol, unable to start coverage"]) ∧
    v8CoverageAfterEach mm opts none fs name =
      .ok (none, fs,
        ["⚠️ connection was lost to the chrome debugger protocol, unable to take coverage"]) ∧
    (alookup fs (rawArtifactPath opts name) = none →
      v8CoverageAfter mm conv opts fs name = .ok fs) ∧
    (alookup fs (rawArtifactPath opts name) = some (.raw cov) →
      generateCoverage mm conv opts fs cov
          (canonOf fs (canonArtifactPath opts name)) = .ok m →
      v8CoverageAfter mm conv opts fs name =
        .ok (fsErase (fsSet fs (canonArtifactPath opts name) (.canon m))
          (rawArtifactPath opts name))) :=
  ⟨rfl, rfl, fun h => after_hook_noop mm conv opts fs name h,
    fun hraw hgen => after_hook_finalizes mm conv opts fs name cov m hslot hraw hgen⟩

theorem session_loss_resilience_witness :
    canonSlotOK fsRawEmpty (canonArtifactPath optsB "spec") = true ∧
    v8CoverageAfter mmAll convKey optsB fsRawEmpty "spec" =
      .ok (fsErase (fsSet fsRawEmpty (canonArtifactPath optsB "spec") (.canon []))
        (rawArtifactPath optsB "spec")) :=
  ⟨by decide,
    (session_loss_resilience mmAll convKey optsB fsRawEmpty "spec" ⟨[]⟩ []
      (by decide)).2.2.2 rfl rfl⟩

theorem getSources_ok_of_src (fs : FS) (bd fp code : String)
    (h : alookup fs fp = some (.src code)) :
    ∃ om logs, getSources fs bd fp = .ok (⟨code, code, om⟩, logs) := by
  simp only [getSources, h]
  exact ⟨_, _, rfl⟩

theorem scriptStep_ok_of_src (conv : Converter) (opts : CypressV8CoverageOptions)
    (fs : FS) (m : CovMap) (t : ScriptCov)
    (h : isSrcSlot fs (pathResolve (opts.buildDir ++ urlPathname t.url)) = true) :
    ∃ m', scriptStep conv opts fs (.ok m) t = .ok m' := by
  unfold isSrcSlot at h
  cases hq : alookup fs (pathResolve (opts.buildDir ++ urlPathname t.url)) with
  | none => rw [hq] at h; cases h
  | some d =>
    cases d with
    | src code =>
      obtain ⟨om, logs, hgs⟩ := getSources_ok_of_src fs opts.buildDir _ code hq
      simp only [scriptStep, hgs]
      by_cases hc : code = ""
      · exact ⟨m, by simp [hc]⟩
      · simp only [if_neg hc]
        cases hcv : (convertCoverage conv
            (pathResolve (opts.buildDir ++ urlPathname t.url)) t.functions
            ⟨code, code, om⟩).1 with
        | none => exact ⟨m, rfl⟩
        | some ist => exact ⟨covMerge m ist, rfl⟩
    | mapFile p => rw [hq] at h; cases h
    | raw c => rw [hq] at h; cases h
    | canon m0 => rw [hq] at h; cases h

theorem scriptStep_id_of_conv_fail (conv : Converter)
    (opts : CypressV8CoverageOptions) (fs : FS) (m : CovMap) (t : ScriptCov)
    (h : isSrcSlot fs (pathResolve (opts.buildDir ++ urlPathname t.url)) = true)
    (hf : ∀ x : V8ToIstanbulSources,
      conv (pathResolve (opts.buildDir ++ urlPathname t.url)) t.functions x = none) :
    scriptStep conv opts fs (.ok m) t = .ok m := by
  unfold isSrcSlot at h
  cases hq : alookup fs (pathResolve (opts.buildDir ++ urlPathname t.url)) with
  | none => rw [hq] at h; cases h
  | some d =>
    cases d with
    | src code =>
      obtain ⟨om, logs, hgs⟩ := getSources_ok_of_src fs opts.buildDir _ code hq
      simp only [scriptStep, hgs]
      by_cases hc : code = ""
      · simp [hc]
      · simp only [if_neg hc, convertCoverage, hf ⟨code, code, om⟩]
    | mapFile p => rw [hq] at h; cases h
    | raw c => rw [hq] at h; cases h
    | canon m0 => rw [hq] at h; cases h

theorem foldl_scriptStep_ok (conv : Converter) (opts : CypressV8CoverageOptions)
    (fs : FS) (l : List ScriptCov) (m : CovMap)
    (h : ∀ t ∈ l, isSrcSlot fs (pathResolve (opts.buildDir ++ urlPathname t.url)) = true) :
    ∃ m', l.foldl (scriptStep conv opts fs) (.ok m) = .ok m' := by
  induction l generalizing m with
  | nil => exact ⟨m, rfl⟩
  | cons x xs ih =>
    obtain ⟨mi, hmi⟩ := scriptStep_ok_of_src conv opts fs m x (h x (by simp))
    rw [List.foldl_cons, hmi]
    exact ih mi (fun t ht => h t (by simp [ht]))

/-- C1 (amended): when every script's built file is readable, a conversion
failure limited to the sourcemap/`v8-to-istanbul` stage for one script
drops only that script's contribution (the result equals the run without
that script), the remaining files are still converted, the pipeline
completes without raising, and the failure is logged. The original claim
additionally asserted this for an unreadable built file, which instead
aborts the whole after-hook (see the counterexample). -/
theorem per_file_conversion_failure_amended (mm : GlobMatcher) (conv : Converter)
    (opts : CypressV8CoverageOptions) (fs : FS) (existing : CovMap)
    (l1 l2 : List ScriptCov) (s : ScriptCov) (srcs : V8ToIstanbulSources)
    (hread : ∀ t ∈ l1 ++ s :: l2,
      isSrcSlot fs (pathResolve (opts.buildDir ++ urlPathname t.url)) = true)
    (hfail : ∀ x : V8ToIstanbulSources,
      conv (pathResolve (opts.buildDir ++ urlPathname s.url)) s.functions x = none) :
    (generateCoverage mm conv opts fs ⟨l1 ++ s :: l2⟩ existing).isOk = true ∧
    generateCoverage mm conv opts fs ⟨l1 ++ s :: l2⟩ existing =
      generateCoverage mm conv opts fs ⟨l1 ++ l2⟩ existing ∧
    (convertCoverage conv (pathResolve (opts.buildDir ++ urlPathname s.url))
      s.functions srcs).2 ≠ [] := by
  obtain ⟨m1, hm1⟩ := foldl_scriptStep_ok conv opts fs l1 existing
    (fun t ht => hread t (List.mem_append_left _ ht))
  have hs_id : scriptStep conv opts fs (.ok m1) s = .ok m1 :=
    scriptStep_id_of_conv_fail conv opts fs m1 s
      (hread s (by simp)) hfail
  obtain ⟨m2, hm2⟩ := foldl_scriptStep_ok conv opts fs l2 m1
    (fun t ht => hread t (by simp [ht]))
  refine ⟨?_, ?_, ?_⟩
  · unfold generateCoverage
    rw [show (ProcessCov.mk (l1 ++ s :: l2)).result = l1 ++ s :: l2 from rfl,
      List.foldl_append, hm1, List.foldl_cons, hs_id, hm2]
    cases opts.includeUncovered <;> rfl
  · unfold generateCoverage
    rw [show (ProcessCov.mk (l1 ++ s :: l2)).result = l1 ++ s :: l2 from rfl,
      show (ProcessCov.mk (l1 ++ l2)).result = l1 ++ l2 from rfl,
      List.foldl_append, List.foldl_append, hm1, List.foldl_cons, hs_id]
  · simp [convertCoverage, hfail srcs]

theorem per_file_conversion_failure_amended_witness :
    isSrcSlot fsBuiltMap (pathResolve (optsB.buildDir ++ urlPathname "http://h/a.js")) = true ∧
    (generateCoverage mmAll convNone optsB fsBuiltMap
      ⟨[⟨"http://h/a.js", "1", []⟩]⟩ []).isOk = true ∧
    generateCoverage mmAll convNone optsB fsBuiltMap ⟨[⟨"http://h/a.js", "1", []⟩]⟩ [] =
      generateCoverage mmAll convNone optsB fsBuiltMap ⟨[]⟩ [] := by
  have h := per_file_conversion_failure_amended mmAll convNone optsB fsBuiltMap []
    [] [] ⟨"http://h/a.js", "1", []⟩ emptySources (by decide) (fun _ => rfl)
  exact ⟨by decide, h.1, h.2.1⟩

/-- C1 counterexample: a raw coverage report with a single script whose
built file is absent (unreadable) makes the after-hook reject (the
`Promise.all` in `generateCoverage` propagates the `fs.readFile`
rejection out of the hook), contradicting the claim that such a failure
only drops that file's contribution and the hook completes without
raising — here with a converter that always succeeds. -/
theorem after_hook_raises_on_unreadable_built_file :
    v8CoverageAfter mmAll convKey optsB fsRawOnly "spec" = .error () := rfl

theorem afterEach_eq (mm : GlobMatcher) (opts : CypressV8CoverageOptions)
    (cov : ProcessCov) (fs : FS) (name : String)
    (hslot : rawSlotOK fs (rawArtifactPath opts name) = true) :
    v8CoverageAfterEach mm opts (some cov) fs name =
      .ok (some (), fsSet fs (rawArtifactPath opts name)
        (.raw (mergeProcessCovs [prevRawOf fs (rawArtifactPath opts name),
          ⟨cov.result.filter (filterV8CoverageResult mm opts)⟩])), []) := by
  unfold rawSlotOK at hslot
  cases hq : alookup fs (rawArtifactPath opts name) with
  | none => simp [v8CoverageAfterEach, hq, prevRawOf]
  | some d =>
    cases d with
    | raw q => simp [v8CoverageAfterEach, hq, prevRawOf]
    | src c => rw [hq] at hslot; cases hslot
    | mapFile p => rw [hq] at hslot; cases hslot
    | canon m0 => rw [hq] at hslot; cases hslot

/-- C4: each afterEach call with an active session reads the spec's prior
raw artifact (absent means the empty report), merges it with the newly
captured-and-filtered coverage per script URL, and writes the merged
result back; every script URL recorded by earlier tests of the same spec
is still present in the written artifact. -/
theorem afterEach_read_merge_write (mm : GlobMatcher)
    (opts : CypressV8CoverageOptions) (cov : ProcessCov) (fs : FS) (name : String)
    (hslot : rawSlotOK fs (rawArtifactPath opts name) = true) :
    v8CoverageAfterEach mm opts (some cov) fs name =
      .ok (some (), fsSet fs (rawArtifactPath opts name)
        (.raw (mergeProcessCovs [prevRawOf fs (rawArtifactPath opts name),
          ⟨cov.result.filter (filterV8CoverageResult mm opts)⟩])), []) ∧
    covUrls (prevRawOf fs (rawArtifactPath opts name)) ⊆
      covUrls (mergeProcessCovs [prevRawOf fs (rawArtifactPath opts name),
        ⟨cov.result.filter (filterV8CoverageResult mm opts)⟩]) := by
  refine ⟨afterEach_eq mm opts cov fs name hslot, ?_⟩
  intro u hu
  rw [covUrls_mergeProcessCovs]
  apply List.mem_dedup.mpr
  simp only [List.map_cons, List.map_nil, List.flatten_cons, List.flatten_nil,
    List.append_nil, List.map_append]
  exact List.mem_append_left _ hu

theorem afterEach_read_merge_write_witness :
    rawSlotOK fsRawEmpty (rawArtifactPath optsA "spec") = true ∧
    v8CoverageAfterEach mmAll optsA (some ⟨[⟨"http://h/a.js", "1", []⟩]⟩)
        fsRawEmpty "spec" =
      .ok (some (), fsSet fsRawEmpty (rawArtifactPath optsA "spec")
        (.raw (mergeProcessCovs [prevRawOf fsRawEmpty (rawArtifactPath optsA "spec"),
          ⟨(ProcessCov.mk [⟨"http://h/a.js", "1", []⟩]).result.filter
            (filterV8CoverageResult mmAll optsA)⟩])), []) :=
  ⟨by decide,
    (afterEach_read_merge_write mmAll optsA ⟨[⟨"http://h/a.js", "1", []⟩]⟩
      fsRawEmpty "spec" (by decide)).1⟩

/-- C10: when no `baseUrls` option is supplied and the Cypress config has no
(truthy) `baseUrl`, the resolved configuration's `baseUrls` is empty, the
script filter rejects every script, and every afterEach capture writes a
merge with zero new scripts, so no tested coverage is ever recorded (the
written artifact's URLs are a subset of the previous artifact's). -/
theorem empty_baseUrls_records_nothing (mm : GlobMatcher) (po : PartialOptions)
    (cfg : Option String) (c : ScriptCov) (cov : ProcessCov) (fs : FS)
    (name : String)
    (hpo : po.baseUrls = none) (hcfg : cfg = none ∨ cfg = some "")
    (hslot : rawSlotOK fs (rawArtifactPath (resolveOptions po cfg) name) = true) :
    (resolveOptions po cfg).baseUrls = [] ∧
    filterV8CoverageResult mm (resolveOptions po cfg) c = false ∧
    v8CoverageAfterEach mm (resolveOptions po cfg) (some cov) fs name =
      .ok (some (), fsSet fs (rawArtifactPath (resolveOptions po cfg) name)
        (.raw (mergeProcessCovs
          [prevRawOf fs (rawArtifactPath (resolveOptions po cfg) name), ⟨[]⟩])), []) ∧
    covUrls (mergeProcessCovs
        [prevRawOf fs (rawArtifactPath (resolveOptions po cfg) name), ⟨[]⟩]) ⊆
      covUrls (prevRawOf fs (rawArtifactPath (resolveOptions po cfg) name)) := by
  have hb : (resolveOptions po cfg).baseUrls = [] := by
    rcases hcfg with h | h <;> simp [resolveOptions, hpo, h]
  have hfil : ∀ x : ScriptCov,
      filterV8CoverageResult mm (resolveOptions po cfg) x = false := by
    intro x
    rw [filterV8CoverageResult_eq_bool, hb]
    simp
  have hnil : cov.result.filter (filterV8CoverageResult mm (resolveOptions po cfg)) = [] :=
    List.filter_eq_nil_iff.mpr (fun a _ => by simp [hfil a])
  refine ⟨hb, hfil c, ?_, ?_⟩
  · have h := afterEach_eq mm (resolveOptions po cfg) cov fs name hslot
    rw [hnil] at h
    exact h
  · intro u hu
    rw [covUrls_mergeProcessCovs] at hu
    have := List.dedup_subset _ hu
    simp only [List.map_cons, List.map_nil, List.flatten_cons, List.flatten_nil,
      List.append_nil, List.map_append] at this
    simpa [covUrls] using this

theorem empty_baseUrls_records_nothing_witness :
    po0.baseUrls = none ∧
    (resolveOptions po0 none).baseUrls = [] ∧
    filterV8CoverageResult mmAll (resolveOptions po0 none)
      ⟨"http://h/a.js", "1", []⟩ = false := by
  have h := empty_baseUrls_records_nothing mmAll po0 none
    ⟨"http://h/a.js", "1", []⟩ ⟨[]⟩ [] "spec" rfl (Or.inl rfl) (by decide)
  exact ⟨rfl, h.1, h.2.1⟩

theorem foldl_scriptStep_error (conv : Converter) (opts : CypressV8CoverageOptions)
    (fs : FS) (l : List ScriptCov) (e : Unit) :
    l.foldl (scriptStep conv opts fs) (.error e) = .error e := by
  induction l with
  | nil => rfl
  | cons x xs ih => rw [List.foldl_cons]; exact ih

theorem scriptStep_ok_cases (conv : Converter) (opts : CypressV8CoverageOptions)
    (fs : FS) (m m' : CovMap) (t : ScriptCov)
    (h : scriptStep conv opts fs (.ok m) t = .ok m') :
    m' = m ∨ ∃ ist, m' = covMerge m ist := by
  simp only [scriptStep] at h
  cases hgs : getSources fs opts.buildDir (pathResolve (opts.buildDir ++ urlPathname t.url)) with
  | error e => rw [hgs] at h; simp only at h; cases h
  | ok pr =>
    rcases pr with ⟨sources, logs⟩
    rw [hgs] at h
    simp only at h
    by_cases hc : sources.source = ""
    · rw [if_pos hc] at h; injection h with h; exact Or.inl h.symm
    · rw [if_neg hc] at h
      cases hcv : (convertCoverage conv
          (pathResolve (opts.buildDir ++ urlPathname t.url)) t.functions sources).1 with
      | none => rw [hcv] at h; injection h with h; exact Or.inl h.symm
      | some ist => rw [hcv] at h; injection h with h; exact Or.inr ⟨ist, h.symm⟩

theorem untestedStep_cases (conv : Converter) (m : CovMap) (s : ScriptCov) :
    untestedStep conv m s = m ∨ ∃ ist, untestedStep conv m s = covMerge m ist := by
  unfold untestedStep
  cases hcv : (convertCoverage conv s.url s.functions emptySources).1 with
  | none => exact Or.inl rfl
  | some ist => exact Or.inr ⟨ist, rfl⟩

theorem covKeys_foldl_untested_mono (conv : Converter) (l : List ScriptCov)
    (m : CovMap) (k : String) (hk : k ∈ covKeys m) :
    k ∈ covKeys (l.foldl (untestedStep conv) m) := by
  induction l generalizing m with
  | nil => exact hk
  | cons x xs ih =>
    rw [List.foldl_cons]
    apply ih
    rcases untestedStep_cases conv m x with h | ⟨ist, h⟩
    · rw [h]; exact hk
    · rw [h]; exact mem_covKeys_covMerge_left hk

theorem covKeys_foldl_scriptStep_mono (conv : Converter)
    (opts : CypressV8CoverageOptions) (fs : FS) (l : List ScriptCov)
    (m m' : CovMap) (k : String)
    (h : l.foldl (scriptStep conv opts fs) (.ok m) = .ok m')
    (hk : k ∈ covKeys m) : k ∈ covKeys m' := by
  induction l generalizing m with
  | nil => injection h with h; rw [← h]; exact hk
  | cons x xs ih =>
    rw [List.foldl_cons] at h
    cases hs : scriptStep conv opts fs (.ok m) x with
    | error e => rw [hs, foldl_scriptStep_error] at h; cases h
    | ok mi =>
      rw [hs] at h
      refine ih mi h ?_
      rcases scriptStep_ok_cases conv opts fs m mi x hs with hcase | ⟨ist, hcase⟩
      · rw [hcase]; exact hk
      · rw [hcase]; exact mem_covKeys_covMerge_left hk

theorem generateCoverage_keys_mono (mm : GlobMatcher) (conv : Converter)
    (opts : CypressV8CoverageOptions) (fs : FS) (cov : ProcessCov)
    (existing m : CovMap) (k : String)
    (h : generateCoverage mm conv opts fs cov existing = .ok m)
    (hk : k ∈ covKeys existing) : k ∈ covKeys m := by
  unfold generateCoverage at h
  cases hf : cov.result.foldl (scriptStep conv opts fs) (.ok existing) with
  | error e => rw [hf] at h; cases h
  | ok m1 =>
    rw [hf] at h
    have hk1 : k ∈ covKeys m1 :=
      covKeys_foldl_scriptStep_mono conv opts fs cov.result existing m1 k hf hk
    cases hu : opts.includeUncovered with
    | false => rw [hu] at h; simp at h; rw [← h]; exact hk1
    | true =>
      rw [hu] at h; simp at h; rw [← h]
      exact covKeys_foldl_untested_mono conv _ m1 k hk1

/-- C3: for every spec name, if no raw artifact exists the after-hook is a
no-op returning null; otherwise it reads the raw artifact, converts it,
merges the result with the existing canonical artifact (treated as empty
if absent — the merge starts from it and preserves its entries), writes
the merged canonical artifact back, and deletes the raw artifact. -/
theorem after_hook_orchestration (mm : GlobMatcher) (conv : Converter)
    (opts : CypressV8CoverageOptions) (fs : FS) (name : String)
    (cov : ProcessCov) (m : CovMap)
    (hslot : canonSlotOK fs (canonArtifactPath opts name) = true) :
    (alookup fs (rawArtifactPath opts name) = none →
      v8CoverageAfter mm conv opts fs name = .ok fs) ∧
    (alookup fs (rawArtifactPath opts name) = some (.raw cov) →
      generateCoverage mm conv opts fs cov
        (canonOf fs (canonArtifactPath opts name)) = .ok m →
      (v8CoverageAfter mm conv opts fs name =
        .ok (fsErase (fsSet fs (canonArtifactPath opts name) (.canon m))
          (rawArtifactPath opts name)) ∧
       alookup (fsErase (fsSet fs (canonArtifactPath opts name) (.canon m))
            (rawArtifactPath opts name)) (canonArtifactPath opts name) =
          some (.canon m) ∧
       alookup (fsErase (fsSet fs (canonArtifactPath opts name) (.canon m))
            (rawArtifactPath opts name)) (rawArtifactPath opts name) = none ∧
       covKeys (canonOf fs (canonArtifactPath opts name)) ⊆ covKeys m)) := by
  refine ⟨fun h => after_hook_noop mm conv opts fs name h, fun hraw hgen => ?_⟩
  refine ⟨after_hook_finalizes mm conv opts fs name cov m hslot hraw hgen, ?_, ?_, ?_⟩
  · rw [alookup_fsErase,
      if_neg (Ne.symm (rawPath_ne_canonPath opts name))]
    exact alookup_fsSet_self
  · rw [alookup_fsErase, if_pos rfl]
  · intro k hk
    exact generateCoverage_keys_mono mm conv opts fs cov _ m k hgen hk

theorem after_hook_orchestration_witness :
    canonSlotOK fsRawEmpty (canonArtifactPath optsB "spec") = true ∧
    v8CoverageAfter mmAll convKey optsB fsRawEmpty "spec" =
      .ok (fsErase (fsSet fsRawEmpty (canonArtifactPath optsB "spec") (.canon []))
        (rawArtifactPath optsB "spec")) ∧
    alookup (fsErase (fsSet fsRawEmpty (canonArtifactPath optsB "spec") (.canon []))
      (rawArtifactPath optsB "spec")) (canonArtifactPath optsB "spec") =
        some (.canon []) ∧
    alookup (fsErase (fsSet fsRawEmpty (canonArtifactPath optsB "spec") (.canon []))
      (rawArtifactPath optsB "spec")) (rawArtifactPath optsB "spec") = none := by
  have h := (after_hook_orchestration mmAll convKey optsB fsRawEmpty "spec"
    ⟨[]⟩ [] (by decide)).2 rfl rfl
  exact ⟨by decide, h.1, h.2.1, h.2.2.1⟩

theorem flatten_map_singleton {α β : Type} (l : List α) (g : α → β) :
    (l.map (fun x => [g x])).flatten = l.map g := by
  induction l with
  | nil => rfl
  | cons x xs ih => simp [ih]

theorem filter_map_comm {α β : Type} (g : α → β) (p : β → Bool) (l : List α) :
    (l.map g).filter p = (l.filter (fun x => p (g x))).map g := by
  induction l with
  | nil => rfl
  | cons x xs ih =>
    by_cases h : p (g x)
    · simp [List.filter_cons, h, ih]
    · simp [List.filter_cons, h, ih]

theorem filter_key_eq_singleton {α : Type} (l : List (String × α)) (f : String)
    (c : α) (hn : (l.map Prod.fst).Nodup) (hm : (f, c) ∈ l) :
    l.filter (fun x => x.1 == f) = [(f, c)] := by
  induction l with
  | nil => cases hm
  | cons e rest ih =>
    rw [List.map_cons, List.nodup_cons] at hn
    rcases List.mem_cons.mp hm with he | hm2
    · rw [← he] at hn ⊢
      have hrest : rest.filter (fun x => x.1 == f) = [] := by
        rw [List.filter_eq_nil_iff]
        intro a ha hx
        exact hn.1 ((beq_iff_eq.mp hx) ▸ List.mem_map.mpr ⟨a, ha, rfl⟩)
      simp [List.filter_cons, hrest]
    · have hef : ¬ ((e.1 == f) = true) := by
        simp only [beq_iff_eq]
        intro he1
        exact hn.1 (he1 ▸ List.mem_map.mpr ⟨(f, c), hm2, rfl⟩)
      simp only [List.filter_cons, hef, if_false]
      exact ih hn.2 hm2

theorem filter_self_eq_singleton (l : List String) (f : String)
    (hn : l.Nodup) (hm : f ∈ l) :
    l.filter (fun u => u == f) = [f] := by
  induction l with
  | nil => cases hm
  | cons e rest ih =>
    rw [List.nodup_cons] at hn
    rcases List.mem_cons.mp hm with he | hm2
    · rw [← he] at hn ⊢
      have hrest : rest.filter (fun u => u == f) = [] := by
        rw [List.filter_eq_nil_iff]
        intro a ha hx
        exact hn.1 ((beq_iff_eq.mp hx) ▸ ha)
      simp [List.filter_cons, hrest]
    · have hef : ¬ ((e == f) = true) := by
        simp only [beq_iff_eq]
        intro he1
        exact hn.1 (he1 ▸ hm2)
      simp only [List.filter_cons, hef, if_false]
      exact ih hn.2 hm2

theorem filterMap_fst_sublist {α β : Type} (g : String × α → Option (String × β))
    (l : List (String × α)) (hg : ∀ e r, g e = some r → r.1 = e.1) :
    List.Sublist ((l.filterMap g).map Prod.fst) (l.map Prod.fst) := by
  induction l with
  | nil => simp
  | cons e rest ih =>
    rw [List.filterMap_cons]
    cases hge : g e with
    | none => exact List.Sublist.cons e.1 ih
    | some r =>
      rw [List.map_cons, List.map_cons, hg e r hge]
      exact List.Sublist.cons₂ e.1 ih

theorem fgPairs_fst_sublist (mm : GlobMatcher) (opts : CypressV8CoverageOptions)
    (fs : FS) :
    List.Sublist ((fgPairs mm opts fs).map Prod.fst) (fs.map Prod.fst) := by
  apply filterMap_fst_sublist
  intro e r h
  rcases e with ⟨p, d⟩
  cases d with
  | src c =>
    simp only at h
    split_ifs at h
    injection h with h
    rw [← h]
  | mapFile q => exact Option.noConfusion h
  | raw q => exact Option.noConfusion h
  | canon q => exact Option.noConfusion h

theorem mergeNoDupSingletons (U : List (String × String))
    (hnU : (U.map Prod.fst).Nodup) :
    (mergeProcessCovs (⟨[]⟩ :: U.map (fun fc => ProcessCov.mk [mkUntestedScript fc]))).result =
      (U.map Prod.fst).map (fun u =>
        (⟨u, "0", (((U.map mkUntestedScript).filter (fun s => s.url == u)).map
          (fun s => s.functions)).flatten⟩ : ScriptCov)) := by
  have hall : ((⟨[]⟩ :: U.map (fun fc => ProcessCov.mk [mkUntestedScript fc])).map
      (fun p => p.result)).flatten = U.map mkUntestedScript := by
    rw [List.map_cons, List.flatten_cons, List.map_map]
    show ([] : List ScriptCov) ++ (U.map (fun fc => [mkUntestedScript fc])).flatten =
      U.map mkUntestedScript
    rw [List.nil_append, flatten_map_singleton]
  have hurls : (U.map mkUntestedScript).map (fun s => s.url) = U.map Prod.fst := by
    rw [List.map_map]; rfl
  simp only [mergeProcessCovs]
  rw [hall, hurls, List.dedup_eq_self.mpr hnU]

theorem untested_result_filter (mm : GlobMatcher) (opts : CypressV8CoverageOptions)
    (fs : FS) (tested : List String) (f c : String)
    (hn : (fs.map Prod.fst).Nodup)
    (hmem : (f, c) ∈ fgPairs mm opts fs)
    (hnt : tested.contains f = false) :
    (getUntestedFileCoverage mm opts fs tested).result.filter (fun s => s.url == f) =
      [⟨f, "0", [⟨"(empty-report)", [⟨0, c.length, 0⟩], true⟩]⟩] := by
  have hnF : ((fgPairs mm opts fs).map Prod.fst).Nodup :=
    List.Nodup.sublist (fgPairs_fst_sublist mm opts fs) hn
  have hmU : (f, c) ∈ untestedPairs mm opts fs tested := by
    apply List.mem_filter.mpr
    refine ⟨hmem, ?_⟩
    show (!(tested.contains f)) = true
    rw [hnt]
    rfl
  have hnU : ((untestedPairs mm opts fs tested).map Prod.fst).Nodup :=
    List.Nodup.sublist (List.Sublist.map Prod.fst (List.filter_sublist _)) hnF
  have hfU : f ∈ (untestedPairs mm opts fs tested).map Prod.fst :=
    List.mem_map.mpr ⟨(f, c), hmU, rfl⟩
  rw [show (getUntestedFileCoverage mm opts fs tested).result =
    (mergeProcessCovs (⟨[]⟩ :: (untestedPairs mm opts fs tested).map
      (fun fc => ProcessCov.mk [mkUntestedScript fc]))).result from rfl]
  rw [mergeNoDupSingletons _ hnU]
  simp only [filter_map_comm, mkUntestedScript,
    filter_self_eq_singleton _ f hnU hfU,
    filter_key_eq_singleton _ f c hnU hmU,
    List.map_cons, List.map_nil, List.flatten_cons, List.flatten_nil,
    List.append_nil]

/-- C7: for every untested file (matching include, not matching exclude,
absent from the tested set), the synthesizer's merged report contains
exactly one record whose url is the file's absolute path, with exactly one
function holding exactly one range from offset 0 to the file's full
length, hit count zero, flagged as block coverage, and named with the
`(empty-report)` sentinel. -/
theorem untested_file_synthesis (mm : GlobMatcher)
    (opts : CypressV8CoverageOptions) (fs : FS) (tested : List String)
    (f c : String)
    (hn : (fs.map Prod.fst).Nodup)
    (hmem : (f, c) ∈ fgPairs mm opts fs)
    (hnt : tested.contains f = false) :
    (getUntestedFileCoverage mm opts fs tested).result.filter (fun s => s.url == f) =
      [⟨f, "0", [⟨"(empty-report)", [⟨0, c.length, 0⟩], true⟩]⟩] :=
  untested_result_filter mm opts fs tested f c hn hmem hnt

theorem untested_file_synthesis_witness :
    ("/app/src/App.tsx", "abc") ∈ fgPairs mmAll optsA fsOneSrc ∧
    (getUntestedFileCoverage mmAll optsA fsOneSrc []).result.filter
        (fun s => s.url == "/app/src/App.tsx") =
      [⟨"/app/src/App.tsx", "0", [⟨"(empty-report)", [⟨0, 3, 0⟩], true⟩]⟩] :=
  ⟨by decide,
    untested_file_synthesis mmAll optsA fsOneSrc [] "/app/src/App.tsx" "abc"
      (by decide) (by decide) rfl⟩

theorem covKeys_foldl_untested_of_mem (conv : Converter) (l : List ScriptCov)
    (m : CovMap) (s : ScriptCov) (cm : CovMap) (k : String)
    (hs : s ∈ l) (hc : conv s.url s.functions emptySources = some cm)
    (hk : k ∈ covKeys cm) :
    k ∈ covKeys (l.foldl (untestedStep conv) m) := by
  revert hs
  induction l generalizing m with
  | nil => intro hs; cases hs
  | cons x xs ih =>
    intro hs
    rw [List.foldl_cons]
    rcases List.mem_cons.mp hs with he | hs2
    · apply covKeys_foldl_untested_mono
      have hstep : untestedStep conv m x = covMerge m cm := by
        rw [he] at hc
        unfold untestedStep
        simp [convertCoverage, hc]
      rw [hstep]
      exact mem_covKeys_covMerge_right hk
    · exact ih _ hs2

/-- C2: when `includeUncovered` is true, every file under `srcDir` matching
some include glob and no exclude glob appears in the coverage map returned
by `generateCoverage` (and hence in the canonical artifact the after-hook
writes from it) — either with real hit data from the tested phase or as a
synthesized zero-coverage entry — provided the external converter
succeeds and keys its output by the given file path. -/
theorem include_uncovered_full_map (mm : GlobMatcher) (conv : Converter)
    (opts : CypressV8CoverageOptions) (fs : FS) (cov : ProcessCov)
    (existing m : CovMap) (f c : String)
    (hinc : opts.includeUncovered = true)
    (hn : (fs.map Prod.fst).Nodup)
    (hconv : ∀ p fns, ∃ cm, conv p fns emptySources = some cm ∧ p ∈ covKeys cm)
    (hmem : (f, c) ∈ fgPairs mm opts fs)
    (hok : generateCoverage mm conv opts fs cov existing = .ok m) :
    f ∈ covKeys m := by
  unfold generateCoverage at hok
  cases hf : cov.result.foldl (scriptStep conv opts fs) (.ok existing) with
  | error e => rw [hf] at hok; cases hok
  | ok m1 =>
    rw [hf, hinc] at hok
    simp at hok
    by_cases hcov : f ∈ covKeys m1
    · rw [← hok]
      exact covKeys_foldl_untested_mono conv _ m1 f hcov
    · have hnt : (covKeys m1).contains f = false := by simpa using hcov
      have hflt := untested_result_filter mm opts fs (covKeys m1) f c hn hmem hnt
      have hrecmem : (⟨f, "0", [⟨"(empty-report)", [⟨0, c.length, 0⟩], true⟩]⟩ : ScriptCov) ∈
          (getUntestedFileCoverage mm opts fs (covKeys m1)).result := by
        apply List.mem_of_mem_filter (p := fun s => s.url == f)
        rw [hflt]
        exact List.mem_singleton_self _
      obtain ⟨cm, hcm, hkey⟩ :=
        hconv f [⟨"(empty-report)", [⟨0, c.length, 0⟩], true⟩]
      rw [← hok]
      exact covKeys_foldl_untested_of_mem conv _ m1
        ⟨f, "0", [⟨"(empty-report)", [⟨0, c.length, 0⟩], true⟩]⟩ cm f
        hrecmem hcm hkey

theorem include_uncovered_full_map_witness :
    optsA.includeUncovered = true ∧
    ("/app/src/App.tsx", "abc") ∈ fgPairs mmAll optsA fsOneSrc ∧
    generateCoverage mmAll convKey optsA fsOneSrc ⟨[]⟩ [] =
      .ok [("/app/src/App.tsx", ⟨[]⟩)] ∧
    "/app/src/App.tsx" ∈ covKeys [("/app/src/App.tsx", (⟨[]⟩ : FileCov))] := by
  refine ⟨rfl, by decide, rfl, ?_⟩
  exact include_uncovered_full_map mmAll convKey optsA fsOneSrc ⟨[]⟩ []
    [("/app/src/App.tsx", ⟨[]⟩)] "/app/src/App.tsx" "abc" rfl (by decide)
    (fun p fns => ⟨[(p, ⟨[]⟩)], rfl, by simp [covKeys]⟩) (by decide) rfl
